import Mathlib

/-!
Shallow embedding of the WAV decoder of `VRSAudioDecoder.cpp`
(`UVRSAudioDecoder::DecodeBase64WavToSoundWave`, `ParseWavHeader`,
`ReadInt32`, `ReadInt16`).

Modelling conventions:
* A byte buffer (`TArray<uint8>`) is a `List Nat` of byte values.
* C++ `int32` / `int16` values are modelled as `Int`, with two's-complement
  wrapping made explicit (`toInt32`, `toInt16`) exactly where the source
  assembles multi-byte values, and (`wrap32`) where the source performs
  `int32` additions that can overflow (the bounds-guard sums of the
  integer reads).
* `TArray::operator[]` on an index outside `[0, Num)` is undefined behaviour
  (the range check is compiled out in shipping builds); it is modelled by
  `byteAt?` returning `none`, which the parser surfaces as an `oobRead`
  outcome so that out-of-bounds accesses are observable.
* The data-chunk scan loop is modelled with explicit fuel; a run that
  exhausts any amount of fuel corresponds to a non-terminating loop.
* `FMemory::Malloc` is modelled as succeeding for every non-negative size;
  a negative `int32` size reaches `Malloc` as a huge `SIZE_T` that cannot
  be satisfied, modelled as the allocation-failure outcome.
* The float division computing `Duration` is modelled as exact division
  in `ℚ` (the claims concern which operands enter the division, not
  floating-point rounding).
-/

abbrev Buffer := List Nat

/-- Two's-complement reinterpretation of a natural number as a C++ `int32`. -/
def toInt32 (n : Nat) : Int :=
  if n % 4294967296 < 2147483648 then ((n % 4294967296 : Nat) : Int)
  else ((n % 4294967296 : Nat) : Int) - 4294967296

/-- Two's-complement reinterpretation of a natural number as a C++ `int16`. -/
def toInt16 (n : Nat) : Int :=
  if n % 65536 < 32768 then ((n % 65536 : Nat) : Int)
  else ((n % 65536 : Nat) : Int) - 65536

/-- Two's-complement wrap of an integer into the `int32` range, used where
the C++ performs `int32` arithmetic whose result can overflow (the
`Offset + 4` / `Offset + 2` guard sums below). -/
def wrap32 (x : Int) : Int :=
  if x % 4294967296 < 2147483648 then x % 4294967296
  else x % 4294967296 - 4294967296

/-- `Data[i]` for a signed index: `some` byte when `0 ≤ i < Data.Num()`,
`none` when the access is out of bounds (undefined behaviour in the C++). -/
def byteAt? (data : Buffer) (i : Int) : Option Nat :=
  if i < 0 then none else data[i.toNat]?

/-- `UVRSAudioDecoder::ReadInt32`: returns `0` when the guard
`Offset + 4 > Data.Num()` fires, otherwise the little-endian `int32` at
`off`.  The guard sum is `int32` arithmetic, so it wraps (`wrap32`): for
`off ≥ 2147483644` the sum wraps negative, the guard does not fire, and
the C++ reads out of bounds.  `none` models the undefined read performed
when the guard passes but some accessed index is outside the buffer. -/
def ReadInt32 (data : Buffer) (off : Int) : Option Int :=
  if (data.length : Int) < wrap32 (off + 4) then some 0
  else
    match byteAt? data off, byteAt? data (off+1), byteAt? data (off+2), byteAt? data (off+3) with
    | some b0, some b1, some b2, some b3 =>
        some (toInt32 (b0 + 256 * b1 + 65536 * b2 + 16777216 * b3))
    | _, _, _, _ => none

/-- `UVRSAudioDecoder::ReadInt16`: returns `0` when the guard
`Offset + 2 > Data.Num()` fires (the sum again wrapping as `int32`),
otherwise the little-endian `int16`. -/
def ReadInt16 (data : Buffer) (off : Int) : Option Int :=
  if (data.length : Int) < wrap32 (off + 2) then some 0
  else
    match byteAt? data off, byteAt? data (off+1) with
    | some b0, some b1 => some (toInt16 (b0 + 256 * b1))
    | _, _ => none

/-- Four consecutive bytes starting at `off` (used for the 4-byte magic /
chunk-identifier comparisons in `ParseWavHeader`). -/
def tagAt (data : Buffer) (off : Int) : Option (Nat × Nat × Nat × Nat) :=
  match byteAt? data off, byteAt? data (off+1), byteAt? data (off+2), byteAt? data (off+3) with
  | some a, some b, some c, some d => some (a, b, c, d)
  | _, _, _, _ => none

/-- Outcome of the `while (Offset + 8 <= WavData.Num())` data-chunk scan. -/
inductive ScanResult where
  | found (dataSize dataOffset : Int)
  | notFound
  | oob (idx : Int)
  | outOfFuel
deriving Repr, DecidableEq

/-- The data-chunk scan loop of `ParseWavHeader`, with explicit fuel.
Each iteration: exit with `notFound` when fewer than 8 bytes remain;
otherwise compare the 4 identifier bytes against `"data"`; on a match
record the chunk size and the offset just past the 8-byte chunk header;
otherwise advance by `8 + chunkSize` (a signed `int32`, so the offset can
move backwards or stand still). -/
def scanForData (data : Buffer) : Int → Nat → ScanResult
  | _, 0 => .outOfFuel
  | off, fuel + 1 =>
    if (data.length : Int) < off + 8 then .notFound
    else
      match byteAt? data off, byteAt? data (off+1), byteAt? data (off+2), byteAt? data (off+3) with
      | some b0, some b1, some b2, some b3 =>
        if b0 = 100 ∧ b1 = 97 ∧ b2 = 116 ∧ b3 = 97 then
          match ReadInt32 data (off + 4) with
          | some sz => .found sz (off + 8)
          | none => .oob (off + 4)
        else
          match ReadInt32 data (off + 4) with
          | some sz => scanForData data (off + 8 + sz) fuel
          | none => .oob (off + 4)
      | _, _, _, _ => .oob off

/-- Failure modes of `ParseWavHeader` (plus the observable outcomes of the
undefined behaviours: out-of-bounds reads and loop non-termination). -/
inductive ParseError where
  | badRiff
  | badWave
  | badFmt
  | fmtTooSmall
  | unsupportedFormat
  | dataChunkNotFound
  | oobRead (idx : Int)
  | outOfFuel
deriving Repr, DecidableEq

/-- The five out-parameters of `ParseWavHeader`. -/
structure WavInfo where
  sampleRate : Int
  numChannels : Int
  bitsPerSample : Int
  dataOffset : Int
  dataSize : Int
deriving Repr, DecidableEq

/-- `UVRSAudioDecoder::ParseWavHeader`: magic checks at fixed offsets, fmt
chunk validation, parameter reads, then the data-chunk scan from offset 36. -/
def ParseWavHeader (data : Buffer) (fuel : Nat) : Except ParseError WavInfo :=
  match tagAt data 0 with
  | none => .error (.oobRead 0)
  | some r =>
    if r ≠ (82, 73, 70, 70) then .error .badRiff
    else
      match tagAt data 8 with
      | none => .error (.oobRead 8)
      | some w =>
        if w ≠ (87, 65, 86, 69) then .error .badWave
        else
          match tagAt data 12 with
          | none => .error (.oobRead 12)
          | some f =>
            if f ≠ (102, 109, 116, 32) then .error .badFmt
            else
              match ReadInt32 data 16 with
              | none => .error (.oobRead 16)
              | some fmtChunkSize =>
                if fmtChunkSize < 16 then .error .fmtTooSmall
                else
                  match ReadInt16 data 20 with
                  | none => .error (.oobRead 20)
                  | some audioFormat =>
                    if audioFormat ≠ 1 then .error .unsupportedFormat
                    else
                      match ReadInt16 data 22, ReadInt32 data 24, ReadInt16 data 34 with
                      | some numCh, some sr, some bits =>
                        match scanForData data 36 fuel with
                        | .found sz off2 => .ok ⟨sr, numCh, bits, off2, sz⟩
                        | .notFound => .error .dataChunkNotFound
                        | .oob i => .error (.oobRead i)
                        | .outOfFuel => .error .outOfFuel
                      | _, _, _ => .error (.oobRead 22)

/-- Failure modes of `DecodeBase64WavToSoundWave`. -/
inductive DecodeError where
  | emptyInput
  | base64DecodeFailed
  | tooSmall
  | parseFailed (e : ParseError)
  | unsupportedSampleRate
  | unsupportedChannelCount
  | unsupportedBitDepth
  | allocationFailed
deriving Repr, DecidableEq

/-- The populated `USoundWave` fields the decoder writes: sample rate,
channel count, `Duration` (exact rational in place of the float division),
`RawPCMDataSize`, and the copied PCM bytes (`RawPCMData`). -/
structure DecodedSoundWave where
  sampleRate : Int
  numChannels : Int
  duration : ℚ
  rawPCMDataSize : Int
  pcm : Buffer
deriving Repr, DecidableEq

/-- Steps 2–6 of `DecodeBase64WavToSoundWave` on the already-Base64-decoded
byte buffer: the 44-byte minimum check, header parse, parameter validation,
`Duration` / `RawPCMDataSize` assignment (from the header-declared data size,
before any clamping), the size-mismatch clamp, allocation, and the PCM copy. -/
def decodeWavBytesFuel (wavData : Buffer) (fuel : Nat) : Except DecodeError DecodedSoundWave :=
  if wavData.length < 44 then .error .tooSmall
  else
    match ParseWavHeader wavData fuel with
    | .error e => .error (.parseFailed e)
    | .ok info =>
      if info.sampleRate < 8000 ∨ 48000 < info.sampleRate then .error .unsupportedSampleRate
      else if info.numChannels < 1 ∨ 2 < info.numChannels then .error .unsupportedChannelCount
      else if info.bitsPerSample ≠ 16 then .error .unsupportedBitDepth
      else if (wavData.length : Int) - info.dataOffset ≠ info.dataSize then
        if min info.dataSize ((wavData.length : Int) - info.dataOffset) < 0 then
          .error .allocationFailed
        else
          .ok ⟨info.sampleRate, info.numChannels,
               Rat.divInt info.dataSize (info.sampleRate * info.numChannels * 2),
               info.dataSize,
               (wavData.drop info.dataOffset.toNat).take
                 (min info.dataSize ((wavData.length : Int) - info.dataOffset)).toNat⟩
      else
        if info.dataSize < 0 then .error .allocationFailed
        else
          .ok ⟨info.sampleRate, info.numChannels,
               Rat.divInt info.dataSize (info.sampleRate * info.numChannels * 2),
               info.dataSize,
               (wavData.drop info.dataOffset.toNat).take info.dataSize.toNat⟩

/-- The byte-buffer stage of the decoder with the canonical fuel: the scan
visits pairwise-distinct offsets in `[0, len - 8]` on every terminating run,
so `len + 2` fuel never cuts a terminating run short. -/
def decodeWavBytes (wavData : Buffer) : Except DecodeError DecodedSoundWave :=
  decodeWavBytesFuel wavData (wavData.length + 2)

/-- Modelled from the spec: `FBase64` (Unreal engine code, not in the
repository sources) is specified in §4.1 as a pure Base64 codec.  Standard
alphabet, sextet index to ASCII code. -/
def b64Char (n : Nat) : Nat :=
  if n < 26 then 65 + n
  else if n < 52 then 97 + (n - 26)
  else if n < 62 then 48 + (n - 52)
  else if n = 62 then 43 else 47

/-- Modelled from the spec: inverse alphabet lookup of the Base64 codec;
`none` for a character outside the alphabet. -/
def b64Index (c : Nat) : Option Nat :=
  if 65 ≤ c ∧ c ≤ 90 then some (c - 65)
  else if 97 ≤ c ∧ c ≤ 122 then some (c - 97 + 26)
  else if 48 ≤ c ∧ c ≤ 57 then some (c - 48 + 52)
  else if c = 43 then some 62
  else if c = 47 then some 63
  else none

/-- Modelled from the spec: Base64 encoding (§4.1 pure codec), bytes to
ASCII codes, with `=` (61) padding. -/
def base64Encode : List Nat → List Nat
  | [] => []
  | [a] => [b64Char (a / 4), b64Char (a % 4 * 16), 61, 61]
  | [a, b] => [b64Char (a / 4), b64Char (a % 4 * 16 + b / 16), b64Char (b % 16 * 4), 61]
  | a :: b :: c :: rest =>
    b64Char (a / 4) :: b64Char (a % 4 * 16 + b / 16) ::
    b64Char (b % 16 * 4 + c / 64) :: b64Char (c % 64) :: base64Encode rest

/-- Modelled from the spec: Base64 decoding (§4.1 pure codec), ASCII codes
to bytes; fails on input that is not valid Base64. -/
def base64Decode : List Nat → Option (List Nat)
  | [] => some []
  | c0 :: c1 :: c2 :: c3 :: rest =>
    match b64Index c0, b64Index c1 with
    | some s0, some s1 =>
      if c2 = 61 ∧ c3 = 61 ∧ rest = [] then some [s0 * 4 + s1 / 16]
      else
        match b64Index c2 with
        | some s2 =>
          if c3 = 61 ∧ rest = [] then some [s0 * 4 + s1 / 16, s1 % 16 * 16 + s2 / 4]
          else
            match b64Index c3 with
            | some s3 =>
              (base64Decode rest).map
                (fun tail => (s0 * 4 + s1 / 16) :: (s1 % 16 * 16 + s2 / 4) :: (s2 % 4 * 64 + s3) :: tail)
            | none => none
        | none => none
    | _, _ => none
  | _ => none

/-- `UVRSAudioDecoder::DecodeBase64WavToSoundWave`: empty-input check,
Base64 decode, then the byte-buffer stage.  The Base64 string is modelled
as its list of ASCII codes. -/
def DecodeBase64WavToSoundWave (s : List Nat) : Except DecodeError DecodedSoundWave :=
  if s.isEmpty then .error .emptyInput
  else
    match base64Decode s with
    | none => .error .base64DecodeFailed
    | some wavData => decodeWavBytes wavData

/-- Little-endian encoding of a 16-bit field (used to build test inputs). -/
def le16 (n : Nat) : Buffer := [n % 256, n / 256 % 256]

/-- Little-endian encoding of a 32-bit field (used to build test inputs). -/
def le32 (n : Nat) : Buffer := [n % 256, n / 256 % 256, n / 65536 % 256, n / 16777216 % 256]

/-- Modelled from the spec: the canonical 36-byte RIFF/WAVE/fmt prelude of
a PCM WAV container (§4.2's fixed-layout header up to offset 36); the
repository has no WAV writer, so this encoder follows the spec's layout
table.  The RIFF size field is not examined by the parser. -/
def wavHeader36 (sr ch bits : Nat) : Buffer :=
  [82, 73, 70, 70] ++ le32 36 ++ [87, 65, 86, 69] ++ [102, 109, 116, 32] ++
  le32 16 ++ le16 1 ++ le16 ch ++ le32 sr ++
  le32 (sr * ch * 2) ++ le16 (ch * 2) ++ le16 bits

/-- A metadata chunk: 4 identifier bytes and a payload. -/
structure MetaChunk where
  i0 : Nat
  i1 : Nat
  i2 : Nat
  i3 : Nat
  payload : Buffer
deriving Repr, DecidableEq

/-- Serialized form of a chunk: identifier, little-endian size, payload. -/
def chunkBytes (m : MetaChunk) : Buffer :=
  [m.i0, m.i1, m.i2, m.i3] ++ le32 m.payload.length ++ m.payload

/-- Serialized form of a list of metadata chunks. -/
def metasBytes : List MetaChunk → Buffer
  | [] => []
  | m :: rest => chunkBytes m ++ metasBytes rest

/-- Serialized `data` chunk holding the PCM payload. -/
def dataChunkBytes (pcm : Buffer) : Buffer :=
  [100, 97, 116, 97] ++ le32 pcm.length ++ pcm

/-- Modelled from the spec: a canonical WAV container (§8 round-trip
property) — 36-byte prelude, optional metadata chunks, then the data
chunk. -/
def buildWav (sr ch bits : Nat) (metas : List MetaChunk) (pcm : Buffer) : Buffer :=
  wavHeader36 sr ch bits ++ metasBytes metas ++ dataChunkBytes pcm

/-- A well-formed metadata chunk: not a `data` chunk, and size representable
as a non-negative `int32`. -/
def MetaWF (m : MetaChunk) : Prop :=
  ¬(m.i0 = 100 ∧ m.i1 = 97 ∧ m.i2 = 116 ∧ m.i3 = 97) ∧ m.payload.length < 2147483648

instance (m : MetaChunk) : Decidable (MetaWF m) := by
  unfold MetaWF; infer_instance

instance {ε α : Type} [DecidableEq ε] [DecidableEq α] : DecidableEq (Except ε α)
  | .error a, .error b =>
    if h : a = b then .isTrue (by rw [h]) else .isFalse (fun hh => by cases hh; exact h rfl)
  | .error _, .ok _ => .isFalse (fun hh => by cases hh)
  | .ok _, .error _ => .isFalse (fun hh => by cases hh)
  | .ok a, .ok b =>
    if h : a = b then .isTrue (by rw [h]) else .isFalse (fun hh => by cases hh; exact h rfl)

/-! Helper lemmas about byte access, the integer reads, and the encoders. -/

theorem wrap32_eq_self {x : Int} (h1 : -2147483648 ≤ x) (h2 : x ≤ 2147483647) :
    wrap32 x = x := by
  unfold wrap32
  omega

theorem wrap32_le {x : Int} (h : 0 ≤ x) : wrap32 x ≤ x := by
  unfold wrap32
  omega

theorem byteAt?_some {data : Buffer} {i : Int} {b : Nat}
    (h : byteAt? data i = some b) : 0 ≤ i ∧ i.toNat < data.length := by
  unfold byteAt? at h
  split at h
  · simp at h
  · refine ⟨by omega, ?_⟩
    by_contra hc
    rw [List.getElem?_eq_none (by omega)] at h
    simp at h

theorem byteAt?_append_right (l r : Buffer) (i : Int) (h : 0 ≤ i) :
    byteAt? (l ++ r) ((l.length : Int) + i) = byteAt? r i := by
  unfold byteAt?
  rw [if_neg (by omega), if_neg (by omega)]
  have h1 : ((l.length : Int) + i).toNat = l.length + i.toNat := by omega
  rw [h1, List.getElem?_append_right (by omega)]
  congr 1
  omega

theorem byteAt?_append_left (l r : Buffer) (i : Int) (h0 : 0 ≤ i) (h : i < (l.length : Int)) :
    byteAt? (l ++ r) i = byteAt? l i := by
  unfold byteAt?
  rw [if_neg (by omega), if_neg (by omega), List.getElem?_append, if_pos (by omega)]

theorem ReadInt32_eq_of {data : Buffer} {off : Int} {b0 b1 b2 b3 : Nat}
    (h0 : byteAt? data off = some b0) (h1 : byteAt? data (off+1) = some b1)
    (h2 : byteAt? data (off+2) = some b2) (h3 : byteAt? data (off+3) = some b3)
    (hlen : off + 4 ≤ (data.length : Int)) :
    ReadInt32 data off = some (toInt32 (b0 + 256 * b1 + 65536 * b2 + 16777216 * b3)) := by
  have hoff : 0 ≤ off := (byteAt?_some h0).1
  have hw := wrap32_le (show (0 : Int) ≤ off + 4 by omega)
  unfold ReadInt32
  rw [if_neg (by omega), h0, h1, h2, h3]

theorem ReadInt16_eq_of {data : Buffer} {off : Int} {b0 b1 : Nat}
    (h0 : byteAt? data off = some b0) (h1 : byteAt? data (off+1) = some b1)
    (hlen : off + 2 ≤ (data.length : Int)) :
    ReadInt16 data off = some (toInt16 (b0 + 256 * b1)) := by
  have hoff : 0 ≤ off := (byteAt?_some h0).1
  have hw := wrap32_le (show (0 : Int) ≤ off + 2 by omega)
  unfold ReadInt16
  rw [if_neg (by omega), h0, h1]

theorem toInt32_of_lt {n : Nat} (h : n < 2147483648) : toInt32 n = (n : Int) := by
  have h2 : n % 4294967296 = n := Nat.mod_eq_of_lt (by omega)
  unfold toInt32
  rw [h2]
  rw [if_pos h]

theorem toInt16_of_lt {n : Nat} (h : n < 32768) : toInt16 n = (n : Int) := by
  have h2 : n % 65536 = n := Nat.mod_eq_of_lt (by omega)
  unfold toInt16
  rw [h2]
  rw [if_pos h]

theorem le32_length (n : Nat) : (le32 n).length = 4 := rfl

theorem le16_length (n : Nat) : (le16 n).length = 2 := rfl

theorem wavHeader36_length (sr ch bits : Nat) : (wavHeader36 sr ch bits).length = 36 := by
  simp [wavHeader36, le32, le16]

theorem chunkBytes_length (m : MetaChunk) : (chunkBytes m).length = 8 + m.payload.length := by
  simp [chunkBytes, le32]
  omega

theorem dataChunkBytes_length (pcm : Buffer) :
    (dataChunkBytes pcm).length = 8 + pcm.length := by
  simp [dataChunkBytes, le32]
  omega

theorem metasBytes_length_ge (metas : List MetaChunk) :
    metas.length ≤ (metasBytes metas).length := by
  induction metas with
  | nil => simp [metasBytes]
  | cons m rest ih =>
    simp only [metasBytes, List.length_append, List.length_cons, chunkBytes_length]
    omega

theorem ReadInt32_append (pre r : Buffer) (i : Int) (hi : 0 ≤ i)
    (hlen : i + 4 ≤ (r.length : Int)) :
    ReadInt32 (pre ++ r) ((pre.length : Int) + i) = ReadInt32 r i := by
  have b0 := byteAt?_append_right pre r i hi
  have b1 : byteAt? (pre ++ r) ((pre.length : Int) + i + 1) = byteAt? r (i + 1) := by
    rw [show (pre.length : Int) + i + 1 = (pre.length : Int) + (i + 1) by ring]
    exact byteAt?_append_right pre r (i + 1) (by omega)
  have b2 : byteAt? (pre ++ r) ((pre.length : Int) + i + 2) = byteAt? r (i + 2) := by
    rw [show (pre.length : Int) + i + 2 = (pre.length : Int) + (i + 2) by ring]
    exact byteAt?_append_right pre r (i + 2) (by omega)
  have b3 : byteAt? (pre ++ r) ((pre.length : Int) + i + 3) = byteAt? r (i + 3) := by
    rw [show (pre.length : Int) + i + 3 = (pre.length : Int) + (i + 3) by ring]
    exact byteAt?_append_right pre r (i + 3) (by omega)
  have hw1 := wrap32_le (show (0 : Int) ≤ (pre.length : Int) + i + 4 by omega)
  have hw2 := wrap32_le (show (0 : Int) ≤ i + 4 by omega)
  unfold ReadInt32
  rw [if_neg (by simp; omega), if_neg (by omega), b0, b1, b2, b3]

theorem ReadInt16_append (pre r : Buffer) (i : Int) (hi : 0 ≤ i)
    (hlen : i + 2 ≤ (r.length : Int)) :
    ReadInt16 (pre ++ r) ((pre.length : Int) + i) = ReadInt16 r i := by
  have b0 := byteAt?_append_right pre r i hi
  have b1 : byteAt? (pre ++ r) ((pre.length : Int) + i + 1) = byteAt? r (i + 1) := by
    rw [show (pre.length : Int) + i + 1 = (pre.length : Int) + (i + 1) by ring]
    exact byteAt?_append_right pre r (i + 1) (by omega)
  have hw1 := wrap32_le (show (0 : Int) ≤ (pre.length : Int) + i + 2 by omega)
  have hw2 := wrap32_le (show (0 : Int) ≤ i + 2 by omega)
  unfold ReadInt16
  rw [if_neg (by simp; omega), if_neg (by omega), b0, b1]

/-! One-iteration characterisations of the data-chunk scan. -/

theorem scan_step_found (buf : Buffer) (off : Int) (f : Nat) (sz : Int)
    (h0 : byteAt? buf off = some 100) (h1 : byteAt? buf (off+1) = some 97)
    (h2 : byteAt? buf (off+2) = some 116) (h3 : byteAt? buf (off+3) = some 97)
    (hsz : ReadInt32 buf (off + 4) = some sz)
    (hlen : off + 8 ≤ (buf.length : Int)) :
    scanForData buf off (f + 1) = .found sz (off + 8) := by
  simp only [scanForData, h0, h1, h2, h3, hsz]
  rw [if_neg (by omega)]
  simp

theorem scan_step_notdata (buf : Buffer) (off : Int) (f : Nat) (b0 b1 b2 b3 : Nat) (sz : Int)
    (h0 : byteAt? buf off = some b0) (h1 : byteAt? buf (off+1) = some b1)
    (h2 : byteAt? buf (off+2) = some b2) (h3 : byteAt? buf (off+3) = some b3)
    (hnd : ¬(b0 = 100 ∧ b1 = 97 ∧ b2 = 116 ∧ b3 = 97))
    (hsz : ReadInt32 buf (off + 4) = some sz)
    (hlen : off + 8 ≤ (buf.length : Int)) :
    scanForData buf off (f + 1) = scanForData buf (off + 8 + sz) f := by
  simp only [scanForData, h0, h1, h2, h3, hsz]
  rw [if_neg (by omega), if_neg hnd]

theorem byteAt?_append_zero (l r : Buffer) (b : Nat) (hb : byteAt? r 0 = some b) :
    byteAt? (l ++ r) (l.length : Int) = some b := by
  rw [show ((l.length : Int)) = (l.length : Int) + 0 by ring,
      byteAt?_append_right l r 0 (by omega)]
  exact hb

theorem byteAt?_dataChunk (pcm : Buffer) :
    byteAt? (dataChunkBytes pcm) 0 = some 100 ∧
    byteAt? (dataChunkBytes pcm) 1 = some 97 ∧
    byteAt? (dataChunkBytes pcm) 2 = some 116 ∧
    byteAt? (dataChunkBytes pcm) 3 = some 97 := ⟨rfl, rfl, rfl, rfl⟩

theorem ReadInt32_dataChunk_size (pcm : Buffer) (h : pcm.length < 2147483648) :
    ReadInt32 (dataChunkBytes pcm) 4 = some (pcm.length : Int) := by
  have h0 : byteAt? (dataChunkBytes pcm) 4 = some (pcm.length % 256) := rfl
  have h1 : byteAt? (dataChunkBytes pcm) (4+1) = some (pcm.length / 256 % 256) := rfl
  have h2 : byteAt? (dataChunkBytes pcm) (4+2) = some (pcm.length / 65536 % 256) := rfl
  have h3 : byteAt? (dataChunkBytes pcm) (4+3) = some (pcm.length / 16777216 % 256) := by
    simp [byteAt?, dataChunkBytes, le32]
  rw [ReadInt32_eq_of h0 h1 h2 h3 (by rw [dataChunkBytes_length]; push_cast; omega)]
  congr 1
  rw [show pcm.length % 256 + 256 * (pcm.length / 256 % 256) + 65536 * (pcm.length / 65536 % 256)
        + 16777216 * (pcm.length / 16777216 % 256) = pcm.length from by omega]
  exact toInt32_of_lt h

theorem byteAt?_chunk_id (m : MetaChunk) (X : Buffer) :
    byteAt? (chunkBytes m ++ X) 0 = some m.i0 ∧
    byteAt? (chunkBytes m ++ X) 1 = some m.i1 ∧
    byteAt? (chunkBytes m ++ X) 2 = some m.i2 ∧
    byteAt? (chunkBytes m ++ X) 3 = some m.i3 := ⟨rfl, rfl, rfl, rfl⟩

theorem ReadInt32_chunk_size (m : MetaChunk) (X : Buffer) (h : m.payload.length < 2147483648) :
    ReadInt32 (chunkBytes m ++ X) 4 = some (m.payload.length : Int) := by
  have h0 : byteAt? (chunkBytes m ++ X) 4 = some (m.payload.length % 256) := rfl
  have h1 : byteAt? (chunkBytes m ++ X) (4+1) = some (m.payload.length / 256 % 256) := rfl
  have h2 : byteAt? (chunkBytes m ++ X) (4+2) = some (m.payload.length / 65536 % 256) := rfl
  have h3 : byteAt? (chunkBytes m ++ X) (4+3) = some (m.payload.length / 16777216 % 256) := by
    simp [byteAt?, chunkBytes, le32]
  rw [ReadInt32_eq_of h0 h1 h2 h3
        (by simp only [List.length_append, chunkBytes_length]; push_cast; omega)]
  congr 1
  rw [show m.payload.length % 256 + 256 * (m.payload.length / 256 % 256)
        + 65536 * (m.payload.length / 65536 % 256)
        + 16777216 * (m.payload.length / 16777216 % 256) = m.payload.length from by omega]
  exact toInt32_of_lt h

/-- One scan iteration at the start of the serialized `data` chunk finds it. -/
theorem scan_found_dataChunk (pre pcm : Buffer) (f : Nat) (hpcm : pcm.length < 2147483648) :
    scanForData (pre ++ dataChunkBytes pcm) (pre.length : Int) (f + 1)
      = .found (pcm.length : Int) ((pre.length : Int) + 8) := by
  have hd := byteAt?_dataChunk pcm
  apply scan_step_found
  · exact byteAt?_append_zero _ _ _ hd.1
  · rw [byteAt?_append_right pre _ 1 (by omega)]; exact hd.2.1
  · rw [byteAt?_append_right pre _ 2 (by omega)]; exact hd.2.2.1
  · rw [byteAt?_append_right pre _ 3 (by omega)]; exact hd.2.2.2
  · rw [ReadInt32_append pre _ 4 (by omega) (by rw [dataChunkBytes_length]; push_cast; omega)]
    exact ReadInt32_dataChunk_size pcm hpcm
  · simp only [List.length_append, dataChunkBytes_length]; push_cast; omega

/-- One scan iteration at the start of a non-`data` chunk skips `8 + size`. -/
theorem scan_skip_chunk (pre : Buffer) (m : MetaChunk) (X : Buffer) (f : Nat)
    (hwf : MetaWF m) :
    scanForData (pre ++ (chunkBytes m ++ X)) (pre.length : Int) (f + 1)
      = scanForData (pre ++ (chunkBytes m ++ X))
          ((pre.length : Int) + 8 + (m.payload.length : Int)) f := by
  have hd := byteAt?_chunk_id m X
  refine scan_step_notdata _ _ _ m.i0 m.i1 m.i2 m.i3 _ ?_ ?_ ?_ ?_ ?_ ?_ ?_
  · exact byteAt?_append_zero _ _ _ hd.1
  · rw [byteAt?_append_right pre _ 1 (by omega)]; exact hd.2.1
  · rw [byteAt?_append_right pre _ 2 (by omega)]; exact hd.2.2.1
  · rw [byteAt?_append_right pre _ 3 (by omega)]; exact hd.2.2.2
  · exact hwf.1
  · rw [ReadInt32_append pre _ 4 (by omega)
          (by simp only [List.length_append, chunkBytes_length]; push_cast; omega)]
    exact ReadInt32_chunk_size m X hwf.2
  · simp only [List.length_append, chunkBytes_length]; push_cast; omega

/-- The data-chunk scan skips every well-formed metadata chunk and finds the
`data` chunk exactly where the serialization places it. -/
theorem scanForData_skip_metas (metas : List MetaChunk) :
    ∀ (pre pcm : Buffer) (fuel : Nat), (∀ m ∈ metas, MetaWF m) →
    pcm.length < 2147483648 → metas.length + 1 ≤ fuel →
    scanForData (pre ++ (metasBytes metas ++ dataChunkBytes pcm)) (pre.length : Int) fuel
      = .found (pcm.length : Int)
          ((pre.length : Int) + ((metasBytes metas).length : Int) + 8) := by
  induction metas with
  | nil =>
    intro pre pcm fuel hwf hpcm hfuel
    obtain ⟨f, rfl⟩ : ∃ f, fuel = f + 1 := ⟨fuel - 1, by omega⟩
    rw [show metasBytes [] ++ dataChunkBytes pcm = dataChunkBytes pcm from rfl,
        scan_found_dataChunk pre pcm f hpcm]
    simp [metasBytes]
  | cons m rest ih =>
    intro pre pcm fuel hwf hpcm hfuel
    obtain ⟨f, rfl⟩ : ∃ f, fuel = f + 1 := ⟨fuel - 1, by omega⟩
    rw [show metasBytes (m :: rest) ++ dataChunkBytes pcm
          = chunkBytes m ++ (metasBytes rest ++ dataChunkBytes pcm) from by
        simp [metasBytes, List.append_assoc]]
    rw [scan_skip_chunk pre m _ f (hwf m (by simp))]
    rw [show pre ++ (chunkBytes m ++ (metasBytes rest ++ dataChunkBytes pcm))
          = (pre ++ chunkBytes m) ++ (metasBytes rest ++ dataChunkBytes pcm) from
        (List.append_assoc _ _ _).symm]
    rw [show (pre.length : Int) + 8 + (m.payload.length : Int)
          = (((pre ++ chunkBytes m).length : Int)) from by
        simp only [List.length_append, chunkBytes_length]; push_cast; ring]
    rw [ih (pre ++ chunkBytes m) pcm f (fun x hx => hwf x (by simp [hx])) hpcm
        (by simp only [List.length_cons] at hfuel; omega)]
    congr 1
    simp only [List.length_append, chunkBytes_length, metasBytes, List.length_cons]
    push_cast
    ring

/-- `ParseWavHeader` on a built WAV container returns exactly the encoded
parameters, with the data chunk located after the metadata chunks. -/
theorem ParseWavHeader_buildWav (sr ch : Nat) (metas : List MetaChunk) (pcm : Buffer)
    (fuel : Nat) (hsr : sr < 2147483648) (hch : ch < 32768)
    (hwf : ∀ m ∈ metas, MetaWF m) (hpcm : pcm.length < 2147483648)
    (hfuel : metas.length + 1 ≤ fuel) :
    ParseWavHeader (buildWav sr ch 16 metas pcm) fuel
      = .ok ⟨(sr : Int), (ch : Int), 16, 36 + ((metasBytes metas).length : Int) + 8,
             (pcm.length : Int)⟩ := by
  have hw : buildWav sr ch 16 metas pcm
      = wavHeader36 sr ch 16 ++ (metasBytes metas ++ dataChunkBytes pcm) := by
    simp [buildWav, List.append_assoc]
  have hlen : (buildWav sr ch 16 metas pcm).length
      = 36 + ((metasBytes metas).length + (8 + pcm.length)) := by
    rw [hw]; simp [wavHeader36_length, dataChunkBytes_length]
  set w := buildWav sr ch 16 metas pcm with hwdef
  have hdr : ∀ (k : Int) (b : Nat), 0 ≤ k → k < 36 →
      byteAt? (wavHeader36 sr ch 16) k = some b → byteAt? w k = some b := by
    intro k b hk0 hk hb
    rw [hw, byteAt?_append_left _ _ _ hk0 (by rw [wavHeader36_length]; exact_mod_cast hk)]
    exact hb
  have hwlen4 : ∀ k : Int, 0 ≤ k → k ≤ 32 → k + 4 ≤ (w.length : Int) := by
    intro k h0 h1; rw [hlen]; push_cast; omega
  have a0 : byteAt? w 0 = some 82 :=
    hdr 0 82 (by norm_num) (by norm_num) (by simp [byteAt?, wavHeader36, le32, le16])
  have a1 : byteAt? w 1 = some 73 :=
    hdr 1 73 (by norm_num) (by norm_num) (by simp [byteAt?, wavHeader36, le32, le16])
  have a2 : byteAt? w 2 = some 70 :=
    hdr 2 70 (by norm_num) (by norm_num) (by simp [byteAt?, wavHeader36, le32, le16])
  have a3 : byteAt? w 3 = some 70 :=
    hdr 3 70 (by norm_num) (by norm_num) (by simp [byteAt?, wavHeader36, le32, le16])
  have a8 : byteAt? w 8 = some 87 :=
    hdr 8 87 (by norm_num) (by norm_num) (by simp [byteAt?, wavHeader36, le32, le16])
  have a9 : byteAt? w 9 = some 65 :=
    hdr 9 65 (by norm_num) (by norm_num) (by simp [byteAt?, wavHeader36, le32, le16])
  have a10 : byteAt? w 10 = some 86 :=
    hdr 10 86 (by norm_num) (by norm_num) (by simp [byteAt?, wavHeader36, le32, le16])
  have a11 : byteAt? w 11 = some 69 :=
    hdr 11 69 (by norm_num) (by norm_num) (by simp [byteAt?, wavHeader36, le32, le16])
  have a12 : byteAt? w 12 = some 102 :=
    hdr 12 102 (by norm_num) (by norm_num) (by simp [byteAt?, wavHeader36, le32, le16])
  have a13 : byteAt? w 13 = some 109 :=
    hdr 13 109 (by norm_num) (by norm_num) (by simp [byteAt?, wavHeader36, le32, le16])
  have a14 : byteAt? w 14 = some 116 :=
    hdr 14 116 (by norm_num) (by norm_num) (by simp [byteAt?, wavHeader36, le32, le16])
  have a15 : byteAt? w 15 = some 32 :=
    hdr 15 32 (by norm_num) (by norm_num) (by simp [byteAt?, wavHeader36, le32, le16])
  have a16 : byteAt? w 16 = some 16 :=
    hdr 16 16 (by norm_num) (by norm_num) (by simp [byteAt?, wavHeader36, le32, le16])
  have a17 : byteAt? w 17 = some 0 :=
    hdr 17 0 (by norm_num) (by norm_num) (by simp [byteAt?, wavHeader36, le32, le16])
  have a18 : byteAt? w 18 = some 0 :=
    hdr 18 0 (by norm_num) (by norm_num) (by simp [byteAt?, wavHeader36, le32, le16])
  have a19 : byteAt? w 19 = some 0 :=
    hdr 19 0 (by norm_num) (by norm_num) (by simp [byteAt?, wavHeader36, le32, le16])
  have a20 : byteAt? w 20 = some 1 :=
    hdr 20 1 (by norm_num) (by norm_num) (by simp [byteAt?, wavHeader36, le32, le16])
  have a21 : byteAt? w 21 = some 0 :=
    hdr 21 0 (by norm_num) (by norm_num) (by simp [byteAt?, wavHeader36, le32, le16])
  have a22 : byteAt? w 22 = some (ch % 256) :=
    hdr 22 _ (by norm_num) (by norm_num) (by simp [byteAt?, wavHeader36, le32, le16])
  have a23 : byteAt? w 23 = some (ch / 256 % 256) :=
    hdr 23 _ (by norm_num) (by norm_num) (by simp [byteAt?, wavHeader36, le32, le16])
  have a24 : byteAt? w 24 = some (sr % 256) :=
    hdr 24 _ (by norm_num) (by norm_num) (by simp [byteAt?, wavHeader36, le32, le16])
  have a25 : byteAt? w 25 = some (sr / 256 % 256) :=
    hdr 25 _ (by norm_num) (by norm_num) (by simp [byteAt?, wavHeader36, le32, le16])
  have a26 : byteAt? w 26 = some (sr / 65536 % 256) :=
    hdr 26 _ (by norm_num) (by norm_num) (by simp [byteAt?, wavHeader36, le32, le16])
  have a27 : byteAt? w 27 = some (sr / 16777216 % 256) :=
    hdr 27 _ (by norm_num) (by norm_num) (by simp [byteAt?, wavHeader36, le32, le16])
  have a34 : byteAt? w 34 = some 16 :=
    hdr 34 16 (by norm_num) (by norm_num) (by simp [byteAt?, wavHeader36, le32, le16])
  have a35 : byteAt? w 35 = some 0 :=
    hdr 35 0 (by norm_num) (by norm_num) (by simp [byteAt?, wavHeader36, le32, le16])
  have t0 : tagAt w 0 = some (82, 73, 70, 70) := by
    simp [tagAt, a0, a1, a2, a3]
  have t8 : tagAt w 8 = some (87, 65, 86, 69) := by
    simp [tagAt, a8, a9, a10, a11]
  have t12 : tagAt w 12 = some (102, 109, 116, 32) := by
    simp [tagAt, a12, a13, a14, a15]
  have r16 : ReadInt32 w 16 = some 16 := by
    rw [ReadInt32_eq_of a16 (by simpa using a17) (by simpa using a18) (by simpa using a19)
          (hwlen4 16 (by norm_num) (by norm_num))]
    norm_num
    decide
  have r20 : ReadInt16 w 20 = some 1 := by
    rw [ReadInt16_eq_of a20 (by simpa using a21)
          (by have := hwlen4 20 (by norm_num) (by norm_num); omega)]
    norm_num
    decide
  have r22 : ReadInt16 w 22 = some (ch : Int) := by
    rw [ReadInt16_eq_of a22 (by simpa using a23)
          (by have := hwlen4 22 (by norm_num) (by norm_num); omega)]
    rw [show ch % 256 + 256 * (ch / 256 % 256) = ch from by omega]
    rw [toInt16_of_lt hch]
  have r24 : ReadInt32 w 24 = some (sr : Int) := by
    rw [ReadInt32_eq_of a24 (by simpa using a25) (by simpa using a26) (by simpa using a27)
          (hwlen4 24 (by norm_num) (by norm_num))]
    rw [show sr % 256 + 256 * (sr / 256 % 256) + 65536 * (sr / 65536 % 256)
          + 16777216 * (sr / 16777216 % 256) = sr from by omega]
    rw [toInt32_of_lt hsr]
  have r34 : ReadInt16 w 34 = some 16 := by
    rw [ReadInt16_eq_of a34 (by simpa using a35)
          (by have := hwlen4 32 (by norm_num) (by norm_num); omega)]
    norm_num
    decide
  have hscan : scanForData w 36 fuel
      = .found (pcm.length : Int) (36 + ((metasBytes metas).length : Int) + 8) := by
    have hs := scanForData_skip_metas metas (wavHeader36 sr ch 16) pcm fuel hwf hpcm hfuel
    rw [wavHeader36_length] at hs
    rw [hw]
    push_cast at hs ⊢
    exact hs
  simp only [ParseWavHeader, t0, t8, t12, r16, r20, r22, r24, r34, hscan]
  norm_num

/-- Full byte-buffer decode of a built WAV container with supported
parameters: every field of the produced sound wave, including the exact PCM
payload. -/
theorem decodeWavBytes_buildWav (sr ch : Nat) (metas : List MetaChunk) (pcm : Buffer)
    (hsr1 : 8000 ≤ sr) (hsr2 : sr ≤ 48000) (hch : ch = 1 ∨ ch = 2)
    (hwf : ∀ m ∈ metas, MetaWF m) (hpcm : pcm.length < 2147483648) :
    decodeWavBytes (buildWav sr ch 16 metas pcm)
      = .ok ⟨(sr : Int), (ch : Int),
             Rat.divInt (pcm.length : Int) ((sr : Int) * (ch : Int) * 2),
             (pcm.length : Int), pcm⟩ := by
  have hw : buildWav sr ch 16 metas pcm
      = wavHeader36 sr ch 16 ++ (metasBytes metas ++ dataChunkBytes pcm) := by
    simp [buildWav, List.append_assoc]
  have hlen : (buildWav sr ch 16 metas pcm).length
      = 36 + ((metasBytes metas).length + (8 + pcm.length)) := by
    rw [hw]; simp [wavHeader36_length, dataChunkBytes_length]
  have hfuel : metas.length + 1 ≤ (buildWav sr ch 16 metas pcm).length + 2 := by
    have := metasBytes_length_ge metas
    omega
  have hparse := ParseWavHeader_buildWav sr ch metas pcm
    ((buildWav sr ch 16 metas pcm).length + 2) (by omega) (by omega) hwf hpcm hfuel
  have hsplit : buildWav sr ch 16 metas pcm
      = (wavHeader36 sr ch 16 ++ metasBytes metas ++ ([100, 97, 116, 97] ++ le32 pcm.length))
          ++ pcm := by
    simp [buildWav, dataChunkBytes, List.append_assoc]
  have hpre_len :
      (wavHeader36 sr ch 16 ++ metasBytes metas ++ ([100, 97, 116, 97] ++ le32 pcm.length)).length
        = 44 + (metasBytes metas).length := by
    simp [wavHeader36_length, le32]
    omega
  have hdrop : (buildWav sr ch 16 metas pcm).drop (44 + (metasBytes metas).length) = pcm := by
    rw [hsplit, ← hpre_len, List.drop_left]
  simp only [decodeWavBytes, decodeWavBytesFuel, hparse]
  rw [if_neg (by omega)]
  rw [if_neg (by omega)]
  rw [if_neg (by rcases hch with rfl | rfl <;> norm_num)]
  rw [if_neg (by norm_num)]
  rw [if_neg (by rw [hlen]; push_cast; ring_nf; omega)]
  rw [if_neg (by omega)]
  rw [show ((36 : Int) + ((metasBytes metas).length : Int) + 8).toNat
        = 44 + (metasBytes metas).length from by omega]
  rw [show ((pcm.length : Int)).toNat = pcm.length from by omega]
  rw [hdrop, List.take_length]

theorem b64_char_spec : ∀ s : Nat, s < 64 → b64Index (b64Char s) = some s ∧ b64Char s ≠ 61 := by
  decide

theorem base64_roundtrip_bounded : ∀ (n : Nat) (l : List Nat), l.length ≤ n →
    (∀ b ∈ l, b < 256) → base64Decode (base64Encode l) = some l := by
  intro n
  induction n with
  | zero =>
    intro l hlen _
    have hnil : l = [] := List.eq_nil_of_length_eq_zero (by omega)
    subst hnil; rfl
  | succ n ih =>
    intro l hlen hb
    match l with
    | [] => rfl
    | [a] =>
      have ha : a < 256 := hb a (by simp)
      have s0 := b64_char_spec (a / 4) (by omega)
      have s1 := b64_char_spec (a % 4 * 16) (by omega)
      simp [base64Encode, base64Decode, s0.1, s1.1]
      omega
    | [a, b] =>
      have ha : a < 256 := hb a (by simp)
      have hbb : b < 256 := hb b (by simp)
      have s0 := b64_char_spec (a / 4) (by omega)
      have s1 := b64_char_spec (a % 4 * 16 + b / 16) (by omega)
      have s2 := b64_char_spec (b % 16 * 4) (by omega)
      simp [base64Encode, base64Decode, s0.1, s1.1, s2.1, s2.2]
      omega
    | a :: b :: c :: rest =>
      have ha : a < 256 := hb a (by simp)
      have hbb : b < 256 := hb b (by simp)
      have hc : c < 256 := hb c (by simp)
      have s0 := b64_char_spec (a / 4) (by omega)
      have s1 := b64_char_spec (a % 4 * 16 + b / 16) (by omega)
      have s2 := b64_char_spec (b % 16 * 4 + c / 64) (by omega)
      have s3 := b64_char_spec (c % 64) (by omega)
      have hrest : base64Decode (base64Encode rest) = some rest := by
        apply ih rest (by simp at hlen; omega)
        intro x hx
        exact hb x (by simp [hx])
      simp [base64Encode, base64Decode, s0.1, s1.1, s2.1, s2.2, s3.1, s3.2, hrest]
      refine ⟨by omega, by omega, by omega⟩

/-- Modelled-from-spec Base64 codec round-trip: decoding an encoding
recovers the original byte sequence. -/
theorem base64_roundtrip (l : List Nat) (hl : ∀ b ∈ l, b < 256) :
    base64Decode (base64Encode l) = some l :=
  base64_roundtrip_bounded l.length l le_rfl hl

theorem base64Encode_ne_nil (a : Nat) (l : List Nat) : base64Encode (a :: l) ≠ [] := by
  match l with
  | [] => simp [base64Encode]
  | [b] => simp [base64Encode]
  | b :: c :: rest => simp [base64Encode]

theorem buildWav_nil_bytes_lt (sr ch bits : Nat) (pcm : Buffer)
    (hpcm : ∀ b ∈ pcm, b < 256) : ∀ b ∈ buildWav sr ch bits [] pcm, b < 256 := by
  intro b hb
  by_cases hmem : b ∈ pcm
  · exact hpcm b hmem
  · simp [buildWav, wavHeader36, metasBytes, dataChunkBytes, le32, le16, hmem] at hb
    omega

/-- A successful scan can only report a data offset just past an in-bounds
8-byte chunk header: the offset lies in `[8, len]` and the scan's entry
offset had at least 8 bytes ahead of it. -/
theorem scanForData_found_bounds (data : Buffer) :
    ∀ (fuel : Nat) (off sz o : Int), scanForData data off fuel = .found sz o →
      off + 8 ≤ (data.length : Int) ∧ 8 ≤ o ∧ o ≤ (data.length : Int) := by
  intro fuel
  induction fuel with
  | zero => intro off sz o h; simp [scanForData] at h
  | succ f ih =>
    intro off sz o h
    simp only [scanForData] at h
    by_cases hguard : (data.length : Int) < off + 8
    · rw [if_pos hguard] at h; simp at h
    · rw [if_neg hguard] at h
      cases h0 : byteAt? data off with
      | none => rw [h0] at h; simp at h
      | some b0 =>
        cases h1 : byteAt? data (off+1) with
        | none => rw [h0, h1] at h; simp at h
        | some b1 =>
          cases h2 : byteAt? data (off+2) with
          | none => rw [h0, h1, h2] at h; simp at h
          | some b2 =>
            cases h3 : byteAt? data (off+3) with
            | none => rw [h0, h1, h2, h3] at h; simp at h
            | some b3 =>
              simp only [h0, h1, h2, h3] at h
              have hoff0 : 0 ≤ off := (byteAt?_some h0).1
              by_cases hdata : b0 = 100 ∧ b1 = 97 ∧ b2 = 116 ∧ b3 = 97
              · rw [if_pos hdata] at h
                cases hsz : ReadInt32 data (off + 4) with
                | none => rw [hsz] at h; simp at h
                | some sz2 =>
                  rw [hsz] at h
                  simp only [ScanResult.found.injEq] at h
                  omega
              · rw [if_neg hdata] at h
                cases hsz : ReadInt32 data (off + 4) with
                | none => rw [hsz] at h; simp at h
                | some sz2 =>
                  rw [hsz] at h
                  have := ih _ _ _ h
                  omega

/-- A structurally successful parse is exactly a successful data-chunk scan
from offset 36 reporting the recorded data size and offset. -/
theorem ParseWavHeader_ok_inv {data : Buffer} {fuel : Nat} {info : WavInfo}
    (h : ParseWavHeader data fuel = .ok info) :
    scanForData data 36 fuel = .found info.dataSize info.dataOffset := by
  unfold ParseWavHeader at h
  repeat' split at h
  all_goals try simp_all
  subst h
  simp

/-- Bounds carried by a structurally successful parse: the buffer holds at
least 44 bytes and the data offset lies in `[8, len]`. -/
theorem ParseWavHeader_ok_bounds {data : Buffer} {fuel : Nat} {info : WavInfo}
    (h : ParseWavHeader data fuel = .ok info) :
    44 ≤ data.length ∧ 8 ≤ info.dataOffset ∧ info.dataOffset ≤ (data.length : Int) := by
  have hs := ParseWavHeader_ok_inv h
  have hb := scanForData_found_bounds data fuel 36 info.dataSize info.dataOffset hs
  omega

/-! Claim theorems. -/

/-- C9: for every decoded byte buffer shorter than 44 bytes, decoding fails
with `TooSmall`; the size guard precedes every header-field read in
`decodeWavBytesFuel`, so no header field is interpreted. -/
theorem wav_decode_too_small (buf : Buffer) (h : buf.length < 44) :
    decodeWavBytes buf = .error .tooSmall := by
  simp only [decodeWavBytes, decodeWavBytesFuel]
  rw [if_pos h]

/-- Witness for C9 at the empty buffer. -/
theorem wav_decode_too_small_witness : decodeWavBytes [] = .error .tooSmall :=
  wav_decode_too_small [] (by decide)

/-- C8 (counterexample): the guard sum `Offset + 4` is `int32` arithmetic,
so at offset 2147483644 it wraps to `-2147483648`, the guard does not fire
even though the 4-byte range extends far past the end of a 4-byte buffer,
and `Data[2147483644]` is read out of bounds (modelled `none`) instead of
the field being `0`; likewise `ReadInt16` at 2147483646. -/
theorem wav_read_int32_guard_wraps :
    ReadInt32 [1, 2, 3, 4] 2147483644 = none
    ∧ (([1, 2, 3, 4] : Buffer).length : Int) < 2147483644 + 4
    ∧ ReadInt32 [1, 2, 3, 4] 2147483644 ≠ some 0
    ∧ ReadInt16 [1, 2, 3, 4] 2147483646 = none := by decide

/-- C8 (amended): every multi-byte little-endian read (`ReadInt32`,
`ReadInt16`) whose byte range would extend past the end of the buffer
returns `0`, for every buffer and every offset at which the guard's `int32`
sum does not overflow (`-2^31 ≤ off` and `off + 4 ≤ 2^31 - 1`, resp.
`off + 2`); a read whose range lies fully inside the buffer returns the
little-endian value of those bytes (as the signed 32-bit or 16-bit
reinterpretation the C++ produces), with no extra bound needed. -/
theorem wav_read_ints_bounds_guard :
    ∀ (data : Buffer) (off : Int),
      ((-2147483648 ≤ off → off + 4 ≤ 2147483647 → (data.length : Int) < off + 4 →
          ReadInt32 data off = some 0)
        ∧ (0 ≤ off → off + 4 ≤ (data.length : Int) →
            ReadInt32 data off = some (toInt32 (data.getD off.toNat 0
              + 256 * data.getD (off + 1).toNat 0 + 65536 * data.getD (off + 2).toNat 0
              + 16777216 * data.getD (off + 3).toNat 0))))
      ∧ ((-2147483648 ≤ off → off + 2 ≤ 2147483647 → (data.length : Int) < off + 2 →
          ReadInt16 data off = some 0)
        ∧ (0 ≤ off → off + 2 ≤ (data.length : Int) →
            ReadInt16 data off = some (toInt16 (data.getD off.toNat 0
              + 256 * data.getD (off + 1).toNat 0)))) := by
  intro data off
  have hbyte : ∀ k : Int, 0 ≤ off → off ≤ k → k.toNat < data.length →
      byteAt? data k = some (data.getD k.toNat 0) := by
    intro k h0 hk hlt
    unfold byteAt?
    rw [if_neg (by omega), List.getElem?_eq_getElem hlt, List.getD_eq_getElem data 0 hlt]
  refine ⟨⟨fun hlow hhigh h => ?_, fun h0 hlen => ?_⟩,
    fun hlow hhigh h => ?_, fun h0 hlen => ?_⟩
  · unfold ReadInt32
    rw [wrap32_eq_self (by omega) (by omega), if_pos h]
  · rw [ReadInt32_eq_of (hbyte off h0 le_rfl (by omega))
      (hbyte (off+1) h0 (by omega) (by omega)) (hbyte (off+2) h0 (by omega) (by omega))
      (hbyte (off+3) h0 (by omega) (by omega)) hlen]
  · unfold ReadInt16
    rw [wrap32_eq_self (by omega) (by omega), if_pos h]
  · rw [ReadInt16_eq_of (hbyte off h0 le_rfl (by omega))
      (hbyte (off+1) h0 (by omega) (by omega)) hlen]

/-- Witness for the amended C8: an out-of-range 32-bit read at a
non-wrapping offset returns 0, and an in-bounds 32-bit read returns the
little-endian value. -/
theorem wav_read_ints_bounds_guard_witness :
    ReadInt32 [1, 2, 3, 4] 1 = some 0 ∧
    ReadInt32 [1, 2, 3, 4] 0 = some (toInt32 (([1, 2, 3, 4] : Buffer).getD (0 : Int).toNat 0
      + 256 * ([1, 2, 3, 4] : Buffer).getD ((0 : Int) + 1).toNat 0
      + 65536 * ([1, 2, 3, 4] : Buffer).getD ((0 : Int) + 2).toNat 0
      + 16777216 * ([1, 2, 3, 4] : Buffer).getD ((0 : Int) + 3).toNat 0)) :=
  ⟨(wav_read_ints_bounds_guard [1, 2, 3, 4] 1).1.1 (by decide) (by decide) (by decide),
   (wav_read_ints_bounds_guard [1, 2, 3, 4] 0).1.2 (by decide) (by decide)⟩

/-- C7: for every buffer whose header parses structurally, decode succeeds
only if `8000 ≤ sampleRate ≤ 48000`, `numChannels ∈ {1, 2}` and
`bitsPerSample = 16`; the three validation failures are reported as
`UnsupportedSampleRate` / `UnsupportedChannelCount` / `UnsupportedBitDepth`
(the checks apply in that order). -/
theorem wav_decode_validation_taxonomy (buf : Buffer) (info : WavInfo)
    (hp : ParseWavHeader buf (buf.length + 2) = .ok info) :
    (∀ res, decodeWavBytes buf = .ok res →
        8000 ≤ info.sampleRate ∧ info.sampleRate ≤ 48000 ∧
        (info.numChannels = 1 ∨ info.numChannels = 2) ∧ info.bitsPerSample = 16)
    ∧ ((info.sampleRate < 8000 ∨ 48000 < info.sampleRate) →
        decodeWavBytes buf = .error .unsupportedSampleRate)
    ∧ (8000 ≤ info.sampleRate → info.sampleRate ≤ 48000 →
        (info.numChannels < 1 ∨ 2 < info.numChannels) →
        decodeWavBytes buf = .error .unsupportedChannelCount)
    ∧ (8000 ≤ info.sampleRate → info.sampleRate ≤ 48000 →
        1 ≤ info.numChannels → info.numChannels ≤ 2 → info.bitsPerSample ≠ 16 →
        decodeWavBytes buf = .error .unsupportedBitDepth) := by
  have h44 := (ParseWavHeader_ok_bounds hp).1
  refine ⟨fun res hres => ?_, fun hsr => ?_, fun hsr1 hsr2 hch => ?_,
    fun hsr1 hsr2 hch1 hch2 hbits => ?_⟩
  · simp only [decodeWavBytes, decodeWavBytesFuel, hp] at hres
    rw [if_neg (by omega)] at hres
    by_cases c1 : info.sampleRate < 8000 ∨ 48000 < info.sampleRate
    · rw [if_pos c1] at hres; simp at hres
    · rw [if_neg c1] at hres
      by_cases c2 : info.numChannels < 1 ∨ 2 < info.numChannels
      · rw [if_pos c2] at hres; simp at hres
      · rw [if_neg c2] at hres
        by_cases c3 : info.bitsPerSample ≠ 16
        · rw [if_pos c3] at hres; simp at hres
        · exact ⟨by omega, by omega, by omega, by omega⟩
  · simp only [decodeWavBytes, decodeWavBytesFuel, hp]
    rw [if_neg (by omega), if_pos hsr]
  · simp only [decodeWavBytes, decodeWavBytesFuel, hp]
    rw [if_neg (by omega), if_neg (by omega), if_pos hch]
  · simp only [decodeWavBytes, decodeWavBytesFuel, hp]
    rw [if_neg (by omega), if_neg (by omega), if_neg (by omega), if_pos hbits]

/-- Witness for C7: a structurally valid WAV with a 96000 Hz sample rate is
rejected as `UnsupportedSampleRate`, and one with 24-bit samples as
`UnsupportedBitDepth`. -/
theorem wav_decode_validation_taxonomy_witness :
    decodeWavBytes (buildWav 96000 1 16 [] [1, 2]) = .error .unsupportedSampleRate ∧
    decodeWavBytes (buildWav 16000 1 24 [] [1, 2]) = .error .unsupportedBitDepth :=
  ⟨(wav_decode_validation_taxonomy (buildWav 96000 1 16 [] [1, 2])
      ⟨96000, 1, 16, 44, 2⟩ (by decide)).2.1 (by decide),
   (wav_decode_validation_taxonomy (buildWav 16000 1 24 [] [1, 2])
      ⟨16000, 1, 24, 44, 2⟩ (by decide)).2.2.2 (by decide) (by decide) (by decide) (by decide)
      (by decide)⟩

/-- C10 (round-trip): encoding a PCM byte buffer with supported parameters
(16-bit, 1 or 2 channels, 8000–48000 Hz) into a canonical 44-byte-header
WAV container, Base64-encoding it, and decoding via
`DecodeBase64WavToSoundWave` reproduces the original PCM bytes, sample rate
and channel count exactly. -/
theorem wav_decode_base64_roundtrip (sr ch : Nat) (pcm : Buffer)
    (hsr1 : 8000 ≤ sr) (hsr2 : sr ≤ 48000) (hch : ch = 1 ∨ ch = 2)
    (hpcm : ∀ b ∈ pcm, b < 256) (hlen : pcm.length < 2147483648) :
    (DecodeBase64WavToSoundWave (base64Encode (buildWav sr ch 16 [] pcm))).map
        (fun r => (r.sampleRate, r.numChannels, r.pcm))
      = .ok ((sr : Int), (ch : Int), pcm) := by
  have hlenw : (buildWav sr ch 16 [] pcm).length = 36 + (0 + (8 + pcm.length)) := by
    simp [buildWav, wavHeader36_length, dataChunkBytes_length, metasBytes]
  have hne : buildWav sr ch 16 [] pcm ≠ [] := by
    intro hnil
    rw [hnil] at hlenw
    simp at hlenw
    omega
  have hEmpty : (base64Encode (buildWav sr ch 16 [] pcm)).isEmpty = false := by
    cases hbw : buildWav sr ch 16 [] pcm with
    | nil => exact absurd hbw hne
    | cons a l =>
      have hen := base64Encode_ne_nil a l
      cases henc : base64Encode (a :: l) with
      | nil => exact absurd henc hen
      | cons x xs => rfl
  simp only [DecodeBase64WavToSoundWave, hEmpty, Bool.false_eq_true, if_false,
    base64_roundtrip _ (buildWav_nil_bytes_lt sr ch 16 pcm hpcm),
    decodeWavBytes_buildWav sr ch [] pcm hsr1 hsr2 hch (by simp) hlen]
  rfl

/-- Witness for C10 at a concrete two-byte PCM payload. -/
theorem wav_decode_base64_roundtrip_witness :
    (DecodeBase64WavToSoundWave (base64Encode (buildWav 16000 1 16 [] [7, 8]))).map
        (fun r => (r.sampleRate, r.numChannels, r.pcm))
      = .ok (((16000 : Nat) : Int), ((1 : Nat) : Int), [7, 8]) :=
  wav_decode_base64_roundtrip 16000 1 [7, 8] (by norm_num) (by norm_num) (by norm_num)
    (by decide) (by norm_num)

/-- A WAV whose data chunk declares `declared` bytes but carries only the
given PCM bytes (used to exercise the size-mismatch paths). -/
def truncWav (sr declared : Nat) (pcm : Buffer) : Buffer :=
  wavHeader36 sr 1 16 ++ [100, 97, 116, 97] ++ le32 declared ++ pcm

/-- A 44-byte WAV whose chunk at offset 36 declares size `-100`
(bytes `9C FF FF FF`), sending the scan offset to `-56`. -/
def negChunkWav : Buffer :=
  wavHeader36 16000 1 16 ++ [76, 73, 83, 84] ++ [156, 255, 255, 255]

/-- A 44-byte WAV whose chunk at offset 36 declares size `-8`
(bytes `F8 FF FF FF`), so `8 + chunkSize = 0` and the scan offset never
advances. -/
def stuckChunkWav : Buffer :=
  wavHeader36 16000 1 16 ++ [76, 73, 83, 84] ++ [248, 255, 255, 255]

/-- A WAV whose data chunk declares size `-1` (bytes `FF FF FF FF`) while
carrying 4 PCM bytes. -/
def negSizeWav : Buffer :=
  wavHeader36 16000 1 16 ++ [100, 97, 116, 97] ++ [255, 255, 255, 255] ++ [1, 2, 3, 4]

/-- C1 (failing input): on a 44-byte buffer whose chunk at offset 36
declares the negative size `-100`, the scan moves its offset to `-56` and
the next iteration evaluates `WavData[-56]` — an out-of-bounds read, not a
reported failure.  The second conjunct records the negative chunk size the
scan read at offset 40. -/
theorem wav_scan_negative_chunk_reads_out_of_bounds :
    decodeWavBytes negChunkWav = .error (.parseFailed (.oobRead (-56)))
    ∧ ReadInt32 negChunkWav 40 = some (-100) := by decide

/-- C4 (failing input): with a non-data chunk at offset 36 declaring size
`-8`, the scan offset never changes (`Offset += 8 + (-8)`), so the
`while (Offset + 8 <= Num)` loop never exits: every fuel amount is
exhausted, i.e. the loop does not terminate. -/
theorem wav_scan_zero_progress_never_terminates :
    ∀ fuel : Nat, scanForData stuckChunkWav 36 fuel = .outOfFuel := by
  intro fuel
  induction fuel with
  | zero => rfl
  | succ n ih =>
    have h := scan_step_notdata stuckChunkWav 36 n 76 73 83 84 (-8)
      (by decide) (by decide) (by decide) (by decide) (by decide) (by decide) (by decide)
    rw [show (36 : Int) + 8 + (-8) = 36 from by norm_num] at h
    rw [h, ih]

/-- C3 (counterexample): a buffer that parses and validates successfully
and whose declared data size (`-1`) differs from the available bytes does
NOT decode successfully — the negative size reaches the allocation as a
huge unsigned value and the decode fails — refuting the claim's
"decoding still succeeds" for this input. -/
theorem wav_truncation_negative_declared_size_fails :
    ParseWavHeader negSizeWav (negSizeWav.length + 2) = .ok ⟨16000, 1, 16, 44, -1⟩
    ∧ ((-1 : Int) ≠ (negSizeWav.length : Int) - 44)
    ∧ decodeWavBytes negSizeWav = .error .allocationFailed := by decide

/-- C3 (amended): for every buffer that parses and validates successfully,
whose header-declared data size is NON-NEGATIVE, and whose declared size
differs from the available bytes, decoding still succeeds and the returned
PCM buffer holds exactly `min(dataByteSize, availableBytes)` bytes copied
starting at `dataByteOffset` — never more bytes than remain. -/
theorem wav_decode_truncation_copies_min (buf : Buffer) (info : WavInfo)
    (hp : ParseWavHeader buf (buf.length + 2) = .ok info)
    (hsr1 : 8000 ≤ info.sampleRate) (hsr2 : info.sampleRate ≤ 48000)
    (hch1 : 1 ≤ info.numChannels) (hch2 : info.numChannels ≤ 2)
    (hbits : info.bitsPerSample = 16)
    (hnn : 0 ≤ info.dataSize)
    (hmm : info.dataSize ≠ (buf.length : Int) - info.dataOffset) :
    decodeWavBytes buf = .ok ⟨info.sampleRate, info.numChannels,
        Rat.divInt info.dataSize (info.sampleRate * info.numChannels * 2), info.dataSize,
        (buf.drop info.dataOffset.toNat).take
          (min info.dataSize ((buf.length : Int) - info.dataOffset)).toNat⟩
    ∧ ((buf.drop info.dataOffset.toNat).take
          (min info.dataSize ((buf.length : Int) - info.dataOffset)).toNat).length
        = (min info.dataSize ((buf.length : Int) - info.dataOffset)).toNat
    ∧ min info.dataSize ((buf.length : Int) - info.dataOffset)
        ≤ (buf.length : Int) - info.dataOffset := by
  have hb := ParseWavHeader_ok_bounds hp
  refine ⟨?_, ?_, min_le_right _ _⟩
  · simp only [decodeWavBytes, decodeWavBytesFuel, hp]
    rw [if_neg (by omega), if_neg (by omega), if_neg (by omega), if_neg (by simp [hbits]),
        if_pos (by omega), if_neg (by omega)]
  · rw [List.length_take, List.length_drop]
    omega

/-- Witness for the amended C3: declared size 50, 3 bytes available —
decode succeeds with exactly the 3 remaining bytes. -/
theorem wav_decode_truncation_copies_min_witness :
    decodeWavBytes (truncWav 16000 50 [1, 2, 3])
      = .ok ⟨16000, 1, Rat.divInt 50 32000, 50, [1, 2, 3]⟩ := by
  have h := (wav_decode_truncation_copies_min (truncWav 16000 50 [1, 2, 3])
    ⟨16000, 1, 16, 44, 50⟩ (by decide) (by decide) (by decide) (by decide) (by decide)
    (by decide) (by decide) (by decide)).1
  rw [h]
  decide

/-- C5 (counterexample): on a truncated WAV (declared size 100, 4 bytes
available) the reported duration is `100 / 32000` — computed from the
header-declared size — while the claimed formula with
`effectiveByteSize = min(100, 4) = 4` gives `4 / 32000 ≠ 100 / 32000`. -/
theorem wav_duration_uses_declared_size :
    (decodeWavBytes (truncWav 16000 100 [9, 9, 9, 9])).map (fun r => r.duration)
        = .ok (Rat.divInt 100 32000)
    ∧ (decodeWavBytes (truncWav 16000 100 [9, 9, 9, 9])).map (fun r => (r.pcm.length : Int))
        = .ok 4
    ∧ Rat.divInt 100 32000 ≠ Rat.divInt 4 32000 := by decide

/-- C5 (amended): on every successful decode the reported duration equals
`rawPCMDataSize / (sampleRate * numChannels * 2)` — where `rawPCMDataSize`
is the header-declared data size recorded before the truncation clamp —
and the divisor is nonzero on every successful path. -/
theorem wav_duration_formula (buf : Buffer) (res : DecodedSoundWave)
    (h : decodeWavBytes buf = .ok res) :
    res.duration = Rat.divInt res.rawPCMDataSize (res.sampleRate * res.numChannels * 2)
    ∧ res.sampleRate * res.numChannels * 2 ≠ 0 := by
  simp only [decodeWavBytes, decodeWavBytesFuel] at h
  by_cases c0 : buf.length < 44
  · rw [if_pos c0] at h; simp at h
  · rw [if_neg c0] at h
    cases hp : ParseWavHeader buf (buf.length + 2) with
    | error e => simp only [hp] at h; simp at h
    | ok info =>
      simp only [hp] at h
      by_cases c1 : info.sampleRate < 8000 ∨ 48000 < info.sampleRate
      · rw [if_pos c1] at h; simp at h
      · rw [if_neg c1] at h
        by_cases c2 : info.numChannels < 1 ∨ 2 < info.numChannels
        · rw [if_pos c2] at h; simp at h
        · rw [if_neg c2] at h
          by_cases c3 : info.bitsPerSample ≠ 16
          · rw [if_pos c3] at h; simp at h
          · rw [if_neg c3] at h
            have hpos : 0 < info.sampleRate * info.numChannels * 2 :=
              mul_pos (mul_pos (by omega) (by omega)) (by norm_num)
            by_cases c4 : (buf.length : Int) - info.dataOffset ≠ info.dataSize
            · rw [if_pos c4] at h
              by_cases c5 : min info.dataSize ((buf.length : Int) - info.dataOffset) < 0
              · rw [if_pos c5] at h; simp at h
              · rw [if_neg c5] at h
                simp only [Except.ok.injEq] at h
                subst h
                exact ⟨rfl, ne_of_gt hpos⟩
            · rw [if_neg c4] at h
              by_cases c6 : info.dataSize < 0
              · rw [if_pos c6] at h; simp at h
              · rw [if_neg c6] at h
                simp only [Except.ok.injEq] at h
                subst h
                exact ⟨rfl, ne_of_gt hpos⟩

/-- Witness for the amended C5 at a concrete well-formed WAV. -/
theorem wav_duration_formula_witness :
    (⟨16000, 1, Rat.divInt 2 32000, 2, [1, 2]⟩ : DecodedSoundWave).duration
        = Rat.divInt (⟨16000, 1, Rat.divInt 2 32000, 2, [1, 2]⟩ : DecodedSoundWave).rawPCMDataSize
            ((⟨16000, 1, Rat.divInt 2 32000, 2, [1, 2]⟩ : DecodedSoundWave).sampleRate
              * (⟨16000, 1, Rat.divInt 2 32000, 2, [1, 2]⟩ : DecodedSoundWave).numChannels * 2)
    ∧ (⟨16000, 1, Rat.divInt 2 32000, 2, [1, 2]⟩ : DecodedSoundWave).sampleRate
        * (⟨16000, 1, Rat.divInt 2 32000, 2, [1, 2]⟩ : DecodedSoundWave).numChannels * 2 ≠ 0 :=
  wav_duration_formula (buildWav 16000 1 16 [] [1, 2])
    ⟨16000, 1, Rat.divInt 2 32000, 2, [1, 2]⟩ (by decide)

/-- C6 (failing input): on a truncated WAV (declared size 100, 4 bytes
available) the decoder returns a result whose `RawPCMDataSize` field is
still 100 while the owned PCM buffer holds only 4 bytes — the size field
was assigned before the clamp and never updated, so the returned object is
inconsistently populated. -/
theorem wav_rawPCMDataSize_mismatch_on_truncation :
    (decodeWavBytes (truncWav 22050 100 [9, 9, 9, 9])).map
        (fun r => (r.rawPCMDataSize, (r.pcm.length : Int))) = .ok (100, 4)
    ∧ (100 : Int) ≠ 4 := by decide
